import Mathlib

/-!
# Verification of the nx_system_calc sizing engine

Shallow embedding of the calculation core of `nx_system_calc`
(`backend/app/services/calculations/`): bitrate, storage, RAID transform,
server sizing, failover capacity search, bandwidth validation, licenses and
multi-site device distribution.  Python floats are modelled as exact
rationals (`ℚ`), except where the source uses a real power (`area ** 0.7`),
which is modelled over `ℝ`.  Functions that raise `ValueError` are modelled
as `Except String`-valued functions.  Configuration-catalog lookups
(CPU variant tables, codec tables) are external JSON files; the looked-up
scalar values are passed as explicit parameters.
-/

namespace NxCalc

/-- Python `round(x, 2)` on a rational: round to two decimal places. -/
def roundQ2 (q : ℚ) : ℚ := (round (q * 100) : ℤ) / 100

/-! ## storage.py -/

/-- Embeds `calculate_daily_storage` from
`backend/app/services/calculations/storage.py`:
`daily = round(bitrate_kbps * recording_factor * 86400 / (8*1024*1024), 2)`,
with the source's validation of bitrate and recording factor. -/
def calculate_daily_storage (bitrate_kbps recording_factor : ℚ) :
    Except String ℚ :=
  if bitrate_kbps ≤ 0 then .error "Bitrate must be positive"
  else if ¬(0 < recording_factor ∧ recording_factor ≤ 1) then
    .error "Recording factor must be between 0 and 1"
  else
    .ok (roundQ2 (bitrate_kbps * recording_factor * 86400 / (8 * 1024 * 1024)))

/-- Embeds `calculate_storage` from `storage.py`: validates retention days and
camera count, then multiplies the already-rounded daily value and rounds
again. -/
def calculate_storage (bitrate_kbps : ℚ) (retention_days : ℤ)
    (recording_factor : ℚ) (num_cameras : ℤ) : Except String ℚ :=
  if retention_days < 1 then .error "Retention days must be at least 1"
  else if num_cameras < 1 then .error "Number of cameras must be at least 1"
  else do
    let daily ← calculate_daily_storage bitrate_kbps recording_factor
    .ok (roundQ2 (daily * retention_days * num_cameras))

end NxCalc

namespace NxCalc

/-! ## licenses.py -/

structure LicenseResult where
  professional_licenses : ℤ
  live_only_licenses : ℤ
  io_module_licenses : ℤ
  total_licenses : ℤ
  deriving Repr, DecidableEq

/-- Embeds `calculate_licenses` from
`backend/app/services/calculations/licenses.py`.  The source validates only
`num_recorded_devices` and `num_live_only_devices` for negativity; the I/O
module count is not validated. -/
def calculate_licenses (num_recorded_devices : ℤ)
    (num_live_only_devices : ℤ) (include_io_modules : Bool)
    (num_io_modules : ℤ) : Except String LicenseResult :=
  if num_recorded_devices < 0 then
    .error "Number of recorded devices cannot be negative"
  else if num_live_only_devices < 0 then
    .error "Number of live-only devices cannot be negative"
  else
    let io_licenses := if include_io_modules then num_io_modules else 0
    .ok { professional_licenses := num_recorded_devices
          live_only_licenses := num_live_only_devices
          io_module_licenses := io_licenses
          total_licenses :=
            num_recorded_devices + num_live_only_devices + io_licenses }

/-! ## servers.py : RAM sizing -/

/-- OS RAM lookup from `calculate_required_ram` in
`backend/app/services/calculations/servers.py`:
`{"arm": 128, "atom": 1024, "core_i3": 1024, "core_i5": 1024}` with
`.get(cpu_variant.lower(), 1024)`; every key other than `"arm"` maps to
1024, as does the default.  The source lower-cases the variant id first; the
embedding takes the id already lower-cased. -/
def ramOsMb (cpu_variant : String) : ℕ :=
  if cpu_variant = "arm" then 128 else 1024

structure RamResult where
  required_ram_mb : ℕ
  required_ram_gb : ℚ
  rounded_ram_gb : ℕ
  deriving Repr, DecidableEq

/-- The power-of-two list used by `calculate_required_ram`. -/
def ramPowers : List ℕ := [1, 2, 4, 8, 16, 32, 64]

/-- Embeds `calculate_required_ram` from `servers.py`:
`requiredRAM = ramOS + (hostClient ? clientRam : 0) + cameras * cameraRam`,
then `rounded_ram_gb = next((p for p in [1,2,4,8,16,32,64] if p >= gb), 64)`.
`required_ram_gb` here is the exact quotient on which the source takes the
rounding decision (the source additionally 2-decimal-rounds it for display).
-/
def calculate_required_ram (num_cameras : ℕ) (cpu_variant : String)
    (host_client : Bool) (camera_ram_mb : ℕ := 40)
    (client_ram_mb : ℕ := 3072) : RamResult :=
  let ram_os := ramOsMb cpu_variant
  let required_ram_mb :=
    ram_os + (if host_client then client_ram_mb else 0)
      + num_cameras * camera_ram_mb
  let required_ram_gb : ℚ := (required_ram_mb : ℚ) / 1024
  let rounded_ram_gb :=
    (ramPowers.find? (fun (p : ℕ) => decide (required_ram_gb ≤ (p : ℚ)))).getD 64
  { required_ram_mb := required_ram_mb
    required_ram_gb := required_ram_gb
    rounded_ram_gb := rounded_ram_gb }

/-! ## raid.py -/

structure RaidResult where
  raw_storage_gb : ℚ
  usable_storage_gb : ℚ
  raid_overhead_gb : ℚ
  filesystem_overhead_gb : ℚ
  deriving Repr, DecidableEq

/-- Embeds `calculate_raid_overhead` from
`backend/app/services/calculations/raid.py`:
`usable = raw * (raid% / 100) * (1 - fs% / 100)`, all outputs rounded to
2 decimals, with the source's three validations. -/
def calculate_raid_overhead (raw_storage_gb raid_usable_percentage : ℚ)
    (filesystem_overhead_percentage : ℚ := 5) : Except String RaidResult :=
  if raw_storage_gb ≤ 0 then .error "Raw storage must be positive"
  else if ¬(0 < raid_usable_percentage ∧ raid_usable_percentage ≤ 100) then
    .error "RAID usable percentage must be between 0 and 100"
  else if ¬(0 ≤ filesystem_overhead_percentage ∧
      filesystem_overhead_percentage < 100) then
    .error "Filesystem overhead must be between 0 and 100"
  else
    let storage_after_raid := raw_storage_gb * (raid_usable_percentage / 100)
    let usable_storage :=
      storage_after_raid * (1 - filesystem_overhead_percentage / 100)
    .ok { raw_storage_gb := roundQ2 raw_storage_gb
          usable_storage_gb := roundQ2 usable_storage
          raid_overhead_gb := roundQ2 (raw_storage_gb - storage_after_raid)
          filesystem_overhead_gb :=
            roundQ2 (storage_after_raid - usable_storage) }

structure UsableStorageResult where
  required_storage_gb : ℚ
  raw_storage_needed_gb : ℚ
  breakdown : RaidResult
  deriving Repr, DecidableEq

/-- Embeds `calculate_usable_storage` from `raid.py`: the inverse transform
`raw = usable / ((raid% / 100) * (1 - fs% / 100))`, returning the raw value
rounded to 2 decimals together with the forward breakdown computed on the
unrounded raw value. -/
def calculate_usable_storage (required_storage_gb raid_usable_percentage : ℚ)
    (filesystem_overhead_percentage : ℚ := 5) :
    Except String UsableStorageResult :=
  if required_storage_gb ≤ 0 then .error "Required storage must be positive"
  else
    let multiplier := (raid_usable_percentage / 100) *
      (1 - filesystem_overhead_percentage / 100)
    let raw_storage_needed := required_storage_gb / multiplier
    do
      let breakdown ← calculate_raid_overhead raw_storage_needed
        raid_usable_percentage filesystem_overhead_percentage
      .ok { required_storage_gb := roundQ2 required_storage_gb
            raw_storage_needed_gb := roundQ2 raw_storage_needed
            breakdown := breakdown }

/-- The round-trip studied in §8 of the spec: run the inverse transform, then
feed its (rounded) `raw_storage_needed_gb` output back through the forward
transform and read off the usable storage. -/
def raidRoundTrip (required_storage_gb raid_usable_percentage : ℚ)
    (filesystem_overhead_percentage : ℚ) : Except String ℚ := do
  let inv ← calculate_usable_storage required_storage_gb
    raid_usable_percentage filesystem_overhead_percentage
  let fwd ← calculate_raid_overhead inv.raw_storage_needed_gb
    raid_usable_percentage filesystem_overhead_percentage
  .ok fwd.usable_storage_gb

/-! ## bandwidth.py : NIC validation -/

/-- Identity of a message appended by `validate_nic_capacity` in
`backend/app/services/calculations/bandwidth.py` (the source builds
formatted strings; we track which message was produced). -/
inductive NicIssue where
  | exceedsCapacity
  | exceedsRecommendedMax
  | approachingMax
  deriving Repr, DecidableEq

structure NicValidation where
  valid : Bool
  utilization_percentage : ℚ
  errors : List NicIssue
  warnings : List NicIssue
  deriving Repr, DecidableEq

/-- Embeds `validate_nic_capacity` from `bandwidth.py`:
`utilization = per_server / (nic_capacity * nic_count) * 100`, then an
`if / elif / elif` chain appending at most one error or warning, and
`valid = (errors == [])`. -/
def validate_nic_capacity (bitrate_per_server_mbps nic_capacity_mbps : ℚ)
    (nic_count : ℕ := 1) (max_utilization_percentage : ℚ := 80) :
    NicValidation :=
  let total_capacity := nic_capacity_mbps * nic_count
  let utilization := bitrate_per_server_mbps / total_capacity * 100
  let issues : List NicIssue × List NicIssue :=
    if utilization > 100 then ([.exceedsCapacity], [])
    else if utilization > max_utilization_percentage then
      ([.exceedsRecommendedMax], [])
    else if utilization > max_utilization_percentage * (9 / 10) then
      ([], [.approachingMax])
    else ([], [])
  { valid := issues.1.isEmpty
    utilization_percentage := roundQ2 utilization
    errors := issues.1
    warnings := issues.2 }

/-! ## servers.py : server count -/

/-- Embeds `calculate_storage_throughput_limit` from `servers.py` (only the
`storage_count` field is consumed by `calculate_server_count`):
`max(1, ceil(total_bitrate_mbps / storage_throughput_mbps))`. -/
def calculate_storage_throughput_limit (total_bitrate_mbps : ℚ)
    (storage_throughput_mbps : ℚ := 204) : ℤ :=
  max 1 ⌈total_bitrate_mbps / storage_throughput_mbps⌉

/-- Limiting-factor label produced by `calculate_server_count`. -/
inductive LimitingFactor where
  | device_count
  | bandwidth
  | storage_throughput
  | multiple
  deriving Repr, DecidableEq

structure ServerCountResult where
  servers_needed : ℤ
  limiting_factor : LimitingFactor
  servers_by_devices : ℤ
  servers_by_bandwidth : ℤ
  deriving Repr, DecidableEq

/-- Embeds `calculate_server_count` from `servers.py`.  The CPU camera cap
(`cpu_variants[cpu_variant].max_cameras`, looked up from the external
server-spec catalog) is passed as `cpu_max_cameras`.  The three bounds are
`ceil(devices / min(max_devices_per_server, cpu_max_cameras))`,
`ceil(bitrate / (nic_capacity * nic_count * (1 - headroom)))` and
`calculate_storage_throughput_limit`, and the limiting factor is picked by
the source's `if / elif` chain of `>=` comparisons. -/
def calculate_server_count (total_devices : ℤ) (total_bitrate_mbps : ℚ)
    (nic_capacity_mbps : ℚ := 1000) (nic_count : ℕ := 1)
    (max_devices_per_server : ℤ := 256) (bandwidth_headroom : ℚ := 1 / 5)
    (storage_throughput_mbps : ℚ := 204) (cpu_max_cameras : ℤ := 256) :
    Except String ServerCountResult :=
  if total_devices < 1 then .error "Total devices must be at least 1"
  else if total_bitrate_mbps < 0 then .error "Total bitrate cannot be negative"
  else
    let effective_max_devices := min max_devices_per_server cpu_max_cameras
    let servers_by_devices :=
      ⌈(total_devices : ℚ) / (effective_max_devices : ℚ)⌉
    let effective_nic_capacity :=
      nic_capacity_mbps * nic_count * (1 - bandwidth_headroom)
    let servers_by_bandwidth := ⌈total_bitrate_mbps / effective_nic_capacity⌉
    let servers_by_storage :=
      calculate_storage_throughput_limit total_bitrate_mbps
        storage_throughput_mbps
    let servers_needed :=
      max servers_by_devices (max servers_by_bandwidth servers_by_storage)
    let limiting_factor :=
      if servers_by_devices ≥ max servers_by_bandwidth servers_by_storage then
        LimitingFactor.device_count
      else if servers_by_bandwidth ≥ max servers_by_devices servers_by_storage
        then LimitingFactor.bandwidth
      else if servers_by_storage ≥ max servers_by_devices servers_by_bandwidth
        then LimitingFactor.storage_throughput
      else LimitingFactor.multiple
    .ok { servers_needed := servers_needed
          limiting_factor := limiting_factor
          servers_by_devices := servers_by_devices
          servers_by_bandwidth := servers_by_bandwidth }

/-! ## servers.py : failover capacity search -/

/-- Parameters of `calculate_failover_capacity` in `servers.py`.  The values
`cpu_max_cameras` and `ram_os_mb` that the source reads from the external
CPU-variant catalog are explicit fields. -/
structure FailoverParams where
  max_camera_bitrate_mbps : ℚ
  cpu_max_cameras : ℕ
  ram_gb : ℕ
  nic_bitrate_mbps : ℚ
  nic_count : ℤ
  storage_throughput_mbps : ℚ
  host_client : Bool
  camera_ram_mb : ℕ
  client_ram_mb : ℕ
  ram_os_mb : ℕ
  deriving Repr, DecidableEq

/-- The conjunction of the four admission checks evaluated by the failover
loop body on the tentative next state (`next_cameras`, `next_bitrate`):
RAM, CPU camera cap, NIC count, and storage-device count
(`max_storage_devices = 12` is hard-coded in the source). -/
def failoverChecks (P : FailoverParams) (next_cameras : ℕ)
    (next_bitrate_mbps : ℚ) : Bool :=
  let required_ram_mb := P.ram_os_mb +
    (if P.host_client then P.client_ram_mb else 0) +
    next_cameras * P.camera_ram_mb
  let check_ram := decide (P.ram_gb * 1024 ≥ required_ram_mb)
  let check_cpu := decide (next_cameras ≤ P.cpu_max_cameras)
  let check_nic :=
    decide (⌈next_bitrate_mbps / P.nic_bitrate_mbps⌉ ≤ P.nic_count)
  let check_hdd :=
    decide (⌈next_bitrate_mbps / P.storage_throughput_mbps⌉ ≤ 12)
  check_ram && check_cpu && check_nic && check_hdd

/-- The `while True` loop of `calculate_failover_capacity`, expressed with
explicit fuel: each iteration tentatively admits one camera and either
commits it (all four checks pass) or stops. -/
def failoverLoop (P : FailoverParams) : ℕ → ℕ × ℚ → ℕ × ℚ
  | 0, s => s
  | fuel + 1, (cameras, bitrate) =>
    let next_cameras := cameras + 1
    let next_bitrate := bitrate + P.max_camera_bitrate_mbps
    if failoverChecks P next_cameras next_bitrate then
      failoverLoop P fuel (next_cameras, next_bitrate)
    else (cameras, bitrate)

/-- Embeds `calculate_failover_capacity` from `servers.py` (the `max_cameras`
output): run the loop from `(0, 0.0)`.  Fuel `cpu_max_cameras + 1` is enough
to reach the loop's own exit: the CPU check refuses camera
`cpu_max_cameras + 1`, so the loop always stops on a failed check with this
much fuel (made precise by the C1 theorem below). -/
def calculate_failover_capacity (P : FailoverParams) : ℕ :=
  (failoverLoop P (P.cpu_max_cameras + 1) (0, 0)).1

/-! ## multi_site.py : device distribution -/

/-- The per-site target list built by `calculate_sites_needed` in
`backend/app/services/calculations/multi_site.py`: every site but the last
is filled to `max_devices_per_site`; the last receives the remainder. -/
def fillSites (max_per_site : ℕ) : ℕ → ℕ → List ℕ
  | 0, _ => []
  | 1, remaining => [remaining]
  | n + 2, remaining =>
    max_per_site :: fillSites max_per_site (n + 1) (remaining - max_per_site)

/-- Embeds `calculate_sites_needed` from `multi_site.py`:
`sites_needed = ceil(total / max_per_site)` and the fill-then-remainder
device split, with the source's two validations. -/
def calculate_sites_needed (total_devices max_devices_per_site : ℕ) :
    Except String (ℕ × List ℕ) :=
  if total_devices < 1 then .error "Total devices must be at least 1"
  else if max_devices_per_site < 1 then
    .error "Max devices per site must be at least 1"
  else
    let sites_needed :=
      (total_devices + max_devices_per_site - 1) / max_devices_per_site
    .ok (sites_needed, fillSites max_devices_per_site sites_needed total_devices)

/-- The inner camera-group allocation loop of
`calculate_multi_site_deployment` for one site: iterate the groups in order,
give the current group `min(remaining_group_devices, capacity_left)` devices.
Returns the updated per-group remainders and the site's device total. -/
def allocGroups : List ℕ → ℕ → List ℕ × ℕ
  | [], _ => ([], 0)
  | r :: rs, cap =>
    let d := min r cap
    let rest := allocGroups rs (cap - d)
    ((r - d) :: rest.1, d + rest.2)

/-- The outer site loop of `calculate_multi_site_deployment`, restricted to
device counts: for each site target (from `calculate_sites_needed`), allocate
from the groups' remaining counts and record the site's device total. -/
def allocSites : List ℕ → List ℕ → List ℕ
  | [], _ => []
  | cap :: caps, remaining =>
    let step := allocGroups remaining cap
    step.2 :: allocSites caps step.1

/-- The device-count projection of `calculate_multi_site_deployment` from
`multi_site.py`: total devices, site targets, then the greedy in-order group
allocation; returns the `devices` field of each produced site. -/
def multiSiteDeviceCounts (group_counts : List ℕ)
    (max_devices_per_site : ℕ) : Except String (List ℕ) := do
  let sites_info ← calculate_sites_needed group_counts.sum max_devices_per_site
  .ok (allocSites sites_info.2 group_counts)

/-! ## bitrate.py -/

/-- Python `round(x, 2)` on a real. -/
noncomputable def roundR2 (x : ℝ) : ℝ := (round (x * 100) : ℤ) / 100

/-- The codec dispatch of `calculate_bitrate` in
`backend/app/services/calculations/bitrate.py`:
`codec_id.lower() in ["h264", "h265", "h264_plus"]`.  The source lower-cases
the codec id first; the embedding takes the id already lower-cased. -/
def isPowerCodec (codec_id : String) : Bool :=
  codec_id = "h264" || codec_id = "h265" || codec_id = "h264_plus"

/-- The video-bitrate formula of `calculate_bitrate` (before audio and
rounding): for H.264/H.265-class codecs
`brand * quality * fps * (0.009 * area^0.7) * compression / 1024`, otherwise
`(area / 6666) * fps * quality * (compression + 1/3) * 12 / 1024`. -/
noncomputable def videoBitrateKbps (resolution_area fps : ℕ)
    (compression_factor quality_multiplier : ℝ) (codec_id : String)
    (brand_factor : ℝ) : ℝ :=
  if isPowerCodec codec_id then
    brand_factor * quality_multiplier * fps *
      ((9 / 1000) * (resolution_area : ℝ) ^ (0.7 : ℝ)) * compression_factor
      / 1024
  else
    ((resolution_area : ℝ) / 6666) * fps * quality_multiplier *
      (compression_factor + 1 / 3) * 12 / 1024

/-- The total bitrate computed by `calculate_bitrate` before the final
2-decimal rounding: video bitrate plus the audio constant when enabled. -/
noncomputable def totalBitrateKbps (resolution_area fps : ℕ)
    (compression_factor quality_multiplier : ℝ) (audio_enabled : Bool)
    (audio_bitrate_kbps : ℝ) (codec_id : String) (brand_factor : ℝ) : ℝ :=
  videoBitrateKbps resolution_area fps compression_factor quality_multiplier
      codec_id brand_factor +
    (if audio_enabled then audio_bitrate_kbps else 0)

/-- Embeds `calculate_bitrate` from `bitrate.py`: the source's validations,
then the rounded total bitrate. -/
noncomputable def calculate_bitrate (resolution_area fps : ℕ)
    (compression_factor : ℝ) (quality_multiplier : ℝ := 1)
    (audio_enabled : Bool := false) (audio_bitrate_kbps : ℝ := 64)
    (codec_id : String := "h264") (brand_factor : ℝ := 1) :
    Except String ℝ :=
  if resolution_area ≤ 0 then .error "Resolution area must be positive"
  else if ¬(1 ≤ fps ∧ fps ≤ 100) then .error "FPS must be between 1 and 100"
  else if compression_factor ≤ 0 then
    .error "Compression factor must be positive"
  else if quality_multiplier ≤ 0 then
    .error "Quality multiplier must be positive"
  else if brand_factor ≤ 0 then .error "Brand factor must be positive"
  else
    .ok (roundR2 (totalBitrateKbps resolution_area fps compression_factor
      quality_multiplier audio_enabled audio_bitrate_kbps codec_id
      brand_factor))

/-- The legacy quality-multiplier normalization performed by
`estimate_bitrate_from_preset` in `bitrate.py`:
`> 1.0 ↦ 0.55 + (m - 1.0) * 0.225`, `< 1.0 ↦ 0.1 + (m - 0.6) * 1.125`,
`= 1.0` passes through. -/
def normalizeQualityMultiplier (quality_multiplier : ℚ) : ℚ :=
  if quality_multiplier > 1 then
    (55 : ℚ) / 100 + (quality_multiplier - 1) * (225 / 1000)
  else if quality_multiplier < 1 then
    (1 : ℚ) / 10 + (quality_multiplier - (6 / 10)) * (1125 / 1000)
  else quality_multiplier

/-- The utilization figure computed by `validate_nic_capacity`. -/
def nicUtilization (bitrate_per_server_mbps nic_capacity_mbps : ℚ)
    (nic_count : ℕ) : ℚ :=
  bitrate_per_server_mbps / (nic_capacity_mbps * nic_count) * 100

/-- Follows the spec's words for C3 (refinement reference): the limiting
factor names whichever of the three bounds achieved the maximum, with ties
resolved by the priority device_count > bandwidth > storage_throughput. -/
def claimedLimitingFactor (by_devices by_bandwidth by_storage : ℤ) :
    LimitingFactor :=
  if by_bandwidth ≤ by_devices ∧ by_storage ≤ by_devices then .device_count
  else if by_storage ≤ by_bandwidth then .bandwidth
  else .storage_throughput

/-! ## Helper lemmas about 2-decimal rounding -/

lemma round_eq_of {α : Type} [LinearOrderedField α] [FloorRing α]
    (q : α) (n : ℤ) (h1 : (n : α) ≤ q + 1 / 2) (h2 : q + 1 / 2 < n + 1) :
    round q = n := by
  rw [round_eq]
  exact Int.floor_eq_iff.mpr ⟨h1, h2⟩

lemma roundQ2_eq_of (q : ℚ) (n : ℤ)
    (h1 : (n : ℚ) ≤ q * 100 + 1 / 2) (h2 : q * 100 + 1 / 2 < n + 1) :
    roundQ2 q = (n : ℚ) / 100 := by
  rw [roundQ2, round_eq_of (q * 100) n h1 h2]

lemma roundQ2_abs_le (q : ℚ) : |roundQ2 q - q| ≤ 1 / 200 := by
  have h : |q * 100 - (round (q * 100) : ℚ)| ≤ 1 / 2 := abs_sub_round (q * 100)
  rw [roundQ2, abs_sub_comm]
  rw [show q - (round (q * 100) : ℚ) / 100 =
    (q * 100 - (round (q * 100) : ℚ)) / 100 by ring]
  rw [abs_div]
  rw [show |(100 : ℚ)| = 100 by norm_num]
  linarith

lemma roundQ2_mono {a b : ℚ} (h : a ≤ b) : roundQ2 a ≤ roundQ2 b := by
  unfold roundQ2
  have h1 : round (a * 100) ≤ round (b * 100) := by
    rw [round_eq, round_eq]
    exact Int.floor_le_floor (by linarith)
  have h2 : ((round (a * 100) : ℤ) : ℚ) ≤ ((round (b * 100) : ℤ) : ℚ) := by
    exact_mod_cast h1
  linarith

/-! ## C5 : storage seed values -/

/-- C5: the storage estimator reproduces the reference seed values exactly:
`calculate_daily_storage(1000, 1.0) = 10.3` and
`calculate_storage(1000, 30, 1.0, 1) = 309.0`, where the total is the
already-rounded daily value times retention days and camera count, rounded
again to 2 decimals. -/
theorem storage_seed_values :
    calculate_daily_storage 1000 1 = .ok (103 / 10) ∧
    calculate_storage 1000 30 1 1 = .ok 309 ∧
    calculate_storage 1000 30 1 1 =
      (calculate_daily_storage 1000 1).map (fun d => roundQ2 (d * 30 * 1)) := by
  have hd : calculate_daily_storage 1000 1 = .ok (103 / 10) := by
    unfold calculate_daily_storage
    rw [if_neg (by norm_num), if_neg (by norm_num)]
    rw [roundQ2_eq_of ((1000 : ℚ) * 1 * 86400 / (8 * 1024 * 1024)) 1030
      (by norm_num) (by norm_num)]
    norm_num
  have hs : calculate_storage 1000 30 1 1 = .ok 309 := by
    unfold calculate_storage
    rw [if_neg (by norm_num), if_neg (by norm_num), hd]
    show Except.ok (roundQ2 ((103 : ℚ) / 10 * 30 * 1)) = Except.ok 309
    rw [roundQ2_eq_of ((103 : ℚ) / 10 * 30 * 1) 30900 (by norm_num)
      (by norm_num)]
    norm_num
  refine ⟨hd, hs, ?_⟩
  rw [hs, hd]
  show Except.ok 309 = Except.ok (roundQ2 ((103 : ℚ) / 10 * 30 * 1))
  rw [roundQ2_eq_of ((103 : ℚ) / 10 * 30 * 1) 30900 (by norm_num)
    (by norm_num)]
  norm_num

/-! ## C6 : quality-multiplier normalization stays in (0, 1] -/

/-- C6: for every legacy catalog quality multiplier `v ∈ [0.6, 2.0]`, the
normalized multiplier used by the bitrate formula lies in `(0, 1]`. -/
theorem quality_normalization_range (v : ℚ) (h1 : 6 / 10 ≤ v) (h2 : v ≤ 2) :
    0 < normalizeQualityMultiplier v ∧ normalizeQualityMultiplier v ≤ 1 := by
  unfold normalizeQualityMultiplier
  split_ifs with hgt hlt
  · constructor <;> linarith
  · constructor <;> linarith
  · constructor <;> linarith

/-- Witness for C6 at the legacy "high" multiplier 1.4. -/
theorem quality_normalization_range_witness :
    ((6 : ℚ) / 10 ≤ 7 / 5 ∧ (7 : ℚ) / 5 ≤ 2) ∧
    (0 < normalizeQualityMultiplier (7 / 5) ∧
      normalizeQualityMultiplier (7 / 5) ≤ 1) :=
  ⟨⟨by norm_num, by norm_num⟩,
    quality_normalization_range (7 / 5) (by norm_num) (by norm_num)⟩

/-! ## C8 : license calculation contract -/

/-- C8 (counterexample to the claim as stated): `calculate_licenses` does
not fail on a negative I/O-module count: with recorded = 0, live-only = 0,
I/O modules included and `num_io_modules = -5` it succeeds and returns
`io_module_licenses = -5`, `total_licenses = -5`. -/
theorem licenses_negative_io_not_rejected :
    calculate_licenses 0 0 true (-5) =
      .ok { professional_licenses := 0, live_only_licenses := 0,
            io_module_licenses := -5, total_licenses := -5 } := by
  rfl

/-- C8 (amended): `calculate_licenses` fails iff the recorded or live-only
count is negative (the I/O-module count is not validated); for non-negative
recorded and live-only counts it returns one professional license per
recorded device, the live-only count, the I/O-module count when included
(else 0), and their sum. -/
theorem licenses_contract (r l io : ℤ) (incl : Bool) :
    ((∃ e, calculate_licenses r l incl io = .error e) ↔ r < 0 ∨ l < 0) ∧
    (0 ≤ r → 0 ≤ l →
      calculate_licenses r l incl io =
        .ok { professional_licenses := r, live_only_licenses := l,
              io_module_licenses := if incl then io else 0,
              total_licenses := r + l + (if incl then io else 0) }) := by
  constructor
  · unfold calculate_licenses
    split_ifs with hr hl
    · simp only [iff_true_intro (Or.inl hr), iff_true]
      exact ⟨_, rfl⟩
    · simp only [iff_true_intro (Or.inr hl), iff_true]
      exact ⟨_, rfl⟩
    · constructor
      · rintro ⟨e, he⟩
        exact absurd he (by simp)
      · intro h
        omega
  · intro hr hl
    unfold calculate_licenses
    rw [if_neg (by omega), if_neg (by omega)]

/-- Witness for C8 at recorded = 100, live-only = 20, no I/O modules. -/
theorem licenses_contract_witness :
    ((∃ e, calculate_licenses 100 20 false 0 = .error e) ↔
      (100 : ℤ) < 0 ∨ (20 : ℤ) < 0) ∧
    ((0 : ℤ) ≤ 100 → (0 : ℤ) ≤ 20 →
      calculate_licenses 100 20 false 0 =
        .ok { professional_licenses := 100, live_only_licenses := 20,
              io_module_licenses := if false then 0 else 0,
              total_licenses := 100 + 20 + (if false then 0 else 0) }) :=
  licenses_contract 100 20 0 false

/-! ## C10 : RAM rounded to a power of two, capped at 64 GB -/

lemma ramPowers_selection (q : ℚ) :
    ((ramPowers.find? (fun (p : ℕ) => decide (q ≤ (p : ℚ)))).getD 64)
        ∈ ramPowers ∧
    (q ≤ 64 →
      q ≤ (((ramPowers.find? (fun (p : ℕ) =>
          decide (q ≤ (p : ℚ)))).getD 64 : ℕ) : ℚ) ∧
      ∀ p ∈ ramPowers, q ≤ (p : ℚ) →
        ((ramPowers.find? (fun (p : ℕ) => decide (q ≤ (p : ℚ)))).getD 64) ≤ p) ∧
    (64 < q →
      ((ramPowers.find? (fun (p : ℕ) => decide (q ≤ (p : ℚ)))).getD 64) = 64) := by
  by_cases h1 : q ≤ 1
  · have hfind : ramPowers.find? (fun (p : ℕ) => decide (q ≤ (p : ℚ))) = some 1 := by
      simp [ramPowers, List.find?, h1]
    rw [hfind]
    simp only [Option.getD_some]
    refine ⟨by norm_num [ramPowers], fun _ => ⟨by push_cast; exact h1, ?_⟩,
      fun hgt => absurd hgt (by push_neg; linarith)⟩
    intro p hp hqp
    simp [ramPowers] at hp
    rcases hp with rfl | rfl | rfl | rfl | rfl | rfl | rfl <;> norm_num
  · by_cases h2 : q ≤ 2
    · have hfind : ramPowers.find? (fun (p : ℕ) => decide (q ≤ (p : ℚ))) = some 2 := by
        simp [ramPowers, List.find?, h1, h2]
      rw [hfind]
      simp only [Option.getD_some]
      push_neg at h1
      refine ⟨by norm_num [ramPowers], fun _ => ⟨by push_cast; exact h2, ?_⟩,
        fun hgt => absurd hgt (by push_neg; linarith)⟩
      intro p hp hqp
      simp [ramPowers] at hp
      rcases hp with rfl | rfl | rfl | rfl | rfl | rfl | rfl <;> push_cast at hqp <;>
        first | (exfalso; linarith) | norm_num
    · by_cases h4 : q ≤ 4
      · have hfind : ramPowers.find? (fun (p : ℕ) => decide (q ≤ (p : ℚ))) = some 4 := by
          simp [ramPowers, List.find?, h1, h2, h4]
        rw [hfind]
        simp only [Option.getD_some]
        push_neg at h1 h2
        refine ⟨by norm_num [ramPowers], fun _ => ⟨by push_cast; exact h4, ?_⟩,
          fun hgt => absurd hgt (by push_neg; linarith)⟩
        intro p hp hqp
        simp [ramPowers] at hp
        rcases hp with rfl | rfl | rfl | rfl | rfl | rfl | rfl <;> push_cast at hqp <;>
          first | (exfalso; linarith) | norm_num
      · by_cases h8 : q ≤ 8
        · have hfind : ramPowers.find? (fun (p : ℕ) => decide (q ≤ (p : ℚ))) = some 8 := by
            simp [ramPowers, List.find?, h1, h2, h4, h8]
          rw [hfind]
          simp only [Option.getD_some]
          push_neg at h1 h2 h4
          refine ⟨by norm_num [ramPowers], fun _ => ⟨by push_cast; exact h8, ?_⟩,
            fun hgt => absurd hgt (by push_neg; linarith)⟩
          intro p hp hqp
          simp [ramPowers] at hp
          rcases hp with rfl | rfl | rfl | rfl | rfl | rfl | rfl <;> push_cast at hqp <;>
            first | (exfalso; linarith) | norm_num
        · by_cases h16 : q ≤ 16
          · have hfind : ramPowers.find? (fun (p : ℕ) => decide (q ≤ (p : ℚ))) = some 16 := by
              simp [ramPowers, List.find?, h1, h2, h4, h8, h16]
            rw [hfind]
            simp only [Option.getD_some]
            push_neg at h1 h2 h4 h8
            refine ⟨by norm_num [ramPowers], fun _ => ⟨by push_cast; exact h16, ?_⟩,
              fun hgt => absurd hgt (by push_neg; linarith)⟩
            intro p hp hqp
            simp [ramPowers] at hp
            rcases hp with rfl | rfl | rfl | rfl | rfl | rfl | rfl <;> push_cast at hqp <;>
              first | (exfalso; linarith) | norm_num
          · by_cases h32 : q ≤ 32
            · have hfind : ramPowers.find? (fun (p : ℕ) => decide (q ≤ (p : ℚ))) = some 32 := by
                simp [ramPowers, List.find?, h1, h2, h4, h8, h16, h32]
              rw [hfind]
              simp only [Option.getD_some]
              push_neg at h1 h2 h4 h8 h16
              refine ⟨by norm_num [ramPowers], fun _ => ⟨by push_cast; exact h32, ?_⟩,
                fun hgt => absurd hgt (by push_neg; linarith)⟩
              intro p hp hqp
              simp [ramPowers] at hp
              rcases hp with rfl | rfl | rfl | rfl | rfl | rfl | rfl <;> push_cast at hqp <;>
                first | (exfalso; linarith) | norm_num
            · by_cases h64 : q ≤ 64
              · have hfind : ramPowers.find? (fun (p : ℕ) => decide (q ≤ (p : ℚ))) = some 64 := by
                  simp [ramPowers, List.find?, h1, h2, h4, h8, h16, h32, h64]
                rw [hfind]
                simp only [Option.getD_some]
                push_neg at h1 h2 h4 h8 h16 h32
                refine ⟨by norm_num [ramPowers], fun _ => ⟨by push_cast; exact h64, ?_⟩,
                  fun hgt => absurd hgt (by push_neg; linarith)⟩
                intro p hp hqp
                simp [ramPowers] at hp
                rcases hp with rfl | rfl | rfl | rfl | rfl | rfl | rfl <;> push_cast at hqp <;>
                  first | (exfalso; linarith) | norm_num
              · have hfind : ramPowers.find? (fun (p : ℕ) => decide (q ≤ (p : ℚ))) = none := by
                  simp [ramPowers, List.find?, h1, h2, h4, h8, h16, h32, h64]
                rw [hfind]
                refine ⟨by simp [ramPowers], fun h => absurd h h64, fun _ => by simp⟩

/-- C10: for every camera count (and any CPU variant, client-hosting flag
and per-camera/client RAM constants), `calculate_required_ram` returns a
`rounded_ram_gb` drawn from {1, 2, 4, 8, 16, 32, 64}; it is the smallest
entry at least the required RAM in GB when one exists, and is silently
capped at 64 when the required RAM exceeds 64 GB. -/
theorem ram_rounding_power_of_two (num_cameras camera_ram client_ram : ℕ)
    (cpu_variant : String) (host_client : Bool) :
    (calculate_required_ram num_cameras cpu_variant host_client
        camera_ram client_ram).rounded_ram_gb ∈ ramPowers ∧
    ((calculate_required_ram num_cameras cpu_variant host_client
        camera_ram client_ram).required_ram_gb ≤ 64 →
      (calculate_required_ram num_cameras cpu_variant host_client
          camera_ram client_ram).required_ram_gb ≤
        ((calculate_required_ram num_cameras cpu_variant host_client
          camera_ram client_ram).rounded_ram_gb : ℚ) ∧
      ∀ p ∈ ramPowers,
        (calculate_required_ram num_cameras cpu_variant host_client
            camera_ram client_ram).required_ram_gb ≤ (p : ℚ) →
        (calculate_required_ram num_cameras cpu_variant host_client
            camera_ram client_ram).rounded_ram_gb ≤ p) ∧
    (64 < (calculate_required_ram num_cameras cpu_variant host_client
        camera_ram client_ram).required_ram_gb →
      (calculate_required_ram num_cameras cpu_variant host_client
        camera_ram client_ram).rounded_ram_gb = 64) := by
  unfold calculate_required_ram
  exact ramPowers_selection _

/-- Witness for C10 at 100 cameras on a core_i5 without hosted client
(required RAM 5024 MB, rounded to 8 GB). -/
theorem ram_rounding_power_of_two_witness :
    (calculate_required_ram 100 "core_i5" false 40 3072).rounded_ram_gb
        ∈ ramPowers ∧
    ((calculate_required_ram 100 "core_i5" false 40 3072).required_ram_gb ≤ 64 →
      (calculate_required_ram 100 "core_i5" false 40 3072).required_ram_gb ≤
        ((calculate_required_ram 100 "core_i5" false 40 3072).rounded_ram_gb : ℚ) ∧
      ∀ p ∈ ramPowers,
        (calculate_required_ram 100 "core_i5" false 40 3072).required_ram_gb
            ≤ (p : ℚ) →
        (calculate_required_ram 100 "core_i5" false 40 3072).rounded_ram_gb
            ≤ p) ∧
    (64 < (calculate_required_ram 100 "core_i5" false 40 3072).required_ram_gb →
      (calculate_required_ram 100 "core_i5" false 40 3072).rounded_ram_gb = 64) :=
  ram_rounding_power_of_two 100 40 3072 "core_i5" false

/-! ## C9 : NIC capacity validation -/

/-- C9 (counterexample to the claim as stated): at utilization 150% (which
exceeds the 80% recommended maximum), `validate_nic_capacity` produces only
the "exceeds capacity" error — no "exceeds recommended max" error and no
"approaching max" warning, because the source's checks are an `elif`
cascade. -/
theorem nic_validation_counterexample :
    nicUtilization 1500 1000 1 > 80 ∧
    (validate_nic_capacity 1500 1000 1 80).errors = [.exceedsCapacity] ∧
    NicIssue.exceedsRecommendedMax ∉
      (validate_nic_capacity 1500 1000 1 80).errors ∧
    (validate_nic_capacity 1500 1000 1 80).warnings = [] := by
  refine ⟨by norm_num [nicUtilization], ?_, ?_, ?_⟩ <;>
    · simp only [validate_nic_capacity]
      rw [if_pos (by norm_num)]
      try decide

/-- C9 (amended): `validate_nic_capacity` reports `valid` exactly when its
error list is empty, and the three utilization checks form a first-match
cascade: above 100% only the "exceeds capacity" error is produced; otherwise
above the recommended maximum only the "exceeds recommended max" error;
otherwise above 90% of the recommended maximum only the "approaching max"
warning; and the seed instance (1000 Mbps on one 1-Gbps NIC, default 80%
maximum) yields utilization 100.0 and `valid = false`. -/
theorem nic_validation_cascade (perServer nicCap maxU : ℚ) (nicCount : ℕ) :
    ((validate_nic_capacity perServer nicCap nicCount maxU).valid = true ↔
      (validate_nic_capacity perServer nicCap nicCount maxU).errors = []) ∧
    (nicUtilization perServer nicCap nicCount > 100 →
      (validate_nic_capacity perServer nicCap nicCount maxU).errors =
          [.exceedsCapacity] ∧
      (validate_nic_capacity perServer nicCap nicCount maxU).warnings = []) ∧
    (nicUtilization perServer nicCap nicCount ≤ 100 →
      nicUtilization perServer nicCap nicCount > maxU →
      (validate_nic_capacity perServer nicCap nicCount maxU).errors =
          [.exceedsRecommendedMax] ∧
      (validate_nic_capacity perServer nicCap nicCount maxU).warnings = []) ∧
    (nicUtilization perServer nicCap nicCount ≤ 100 →
      nicUtilization perServer nicCap nicCount ≤ maxU →
      nicUtilization perServer nicCap nicCount > maxU * (9 / 10) →
      (validate_nic_capacity perServer nicCap nicCount maxU).errors = [] ∧
      (validate_nic_capacity perServer nicCap nicCount maxU).warnings =
          [.approachingMax]) ∧
    (nicUtilization perServer nicCap nicCount ≤ 100 →
      nicUtilization perServer nicCap nicCount ≤ maxU →
      nicUtilization perServer nicCap nicCount ≤ maxU * (9 / 10) →
      (validate_nic_capacity perServer nicCap nicCount maxU).errors = [] ∧
      (validate_nic_capacity perServer nicCap nicCount maxU).warnings = []) ∧
    (validate_nic_capacity 1000 1000 1 80).utilization_percentage = 100 ∧
    (validate_nic_capacity 1000 1000 1 80).valid = false := by
  have hseed1 :
      (validate_nic_capacity 1000 1000 1 80).utilization_percentage = 100 := by
    simp only [validate_nic_capacity]
    rw [show (1000 : ℚ) / (1000 * ((1 : ℕ) : ℚ)) * 100 = 100 by norm_num]
    rw [roundQ2_eq_of 100 10000 (by norm_num) (by norm_num)]
    norm_num
  have hseed2 : (validate_nic_capacity 1000 1000 1 80).valid = false := by
    simp only [validate_nic_capacity]
    rw [if_neg (by norm_num), if_pos (by norm_num)]
    rfl
  refine ⟨?_, ?_, ?_, ?_, ?_, hseed1, hseed2⟩
  · simp only [validate_nic_capacity]
    split_ifs <;> simp
  · intro h
    simp only [nicUtilization] at h
    simp only [validate_nic_capacity]
    rw [if_pos h]
    exact ⟨rfl, rfl⟩
  · intro h1 h2
    simp only [nicUtilization] at h1 h2
    simp only [validate_nic_capacity]
    rw [if_neg (not_lt.mpr h1), if_pos h2]
    exact ⟨rfl, rfl⟩
  · intro h1 h2 h3
    simp only [nicUtilization] at h1 h2 h3
    simp only [validate_nic_capacity]
    rw [if_neg (not_lt.mpr h1), if_neg (not_lt.mpr h2), if_pos h3]
    exact ⟨rfl, rfl⟩
  · intro h1 h2 h3
    simp only [nicUtilization] at h1 h2 h3
    simp only [validate_nic_capacity]
    rw [if_neg (not_lt.mpr h1), if_neg (not_lt.mpr h2),
      if_neg (not_lt.mpr h3)]
    exact ⟨rfl, rfl⟩

/-! ## C4 : RAID round-trip -/

lemma calculate_raid_overhead_ok (raw p o : ℚ) (h0 : 0 < raw) (h1 : 0 < p)
    (h2 : p ≤ 100) (h3 : 0 ≤ o) (h4 : o < 100) :
    calculate_raid_overhead raw p o =
      .ok { raw_storage_gb := roundQ2 raw,
            usable_storage_gb := roundQ2 (raw * (p / 100) * (1 - o / 100)),
            raid_overhead_gb := roundQ2 (raw - raw * (p / 100)),
            filesystem_overhead_gb :=
              roundQ2 (raw * (p / 100) -
                raw * (p / 100) * (1 - o / 100)) } := by
  unfold calculate_raid_overhead
  rw [if_neg (not_le.mpr h0), if_neg (not_not_intro ⟨h1, h2⟩),
    if_neg (not_not_intro ⟨h3, h4⟩)]

lemma calculate_usable_storage_ok (req p o : ℚ) (h0 : 0 < req) (h1 : 0 < p)
    (h2 : p ≤ 100) (h3 : 0 ≤ o) (h4 : o < 100) :
    ∃ res, calculate_usable_storage req p o = .ok res ∧
      res.raw_storage_needed_gb =
        roundQ2 (req / ((p / 100) * (1 - o / 100))) := by
  have hraw : 0 < req / ((p / 100) * (1 - o / 100)) :=
    div_pos h0 (mul_pos (by linarith) (by linarith))
  simp only [calculate_usable_storage]
  rw [if_neg (not_le.mpr h0), calculate_raid_overhead_ok _ p o hraw h1 h2 h3 h4]
  exact ⟨_, rfl, rfl⟩

/-- C4 (counterexample to the claim as stated): at X = 0.004 (> 0), the
inverse transform's rounded `raw_storage_needed_gb` is 0.00, so feeding it
back into `calculate_raid_overhead` raises "Raw storage must be positive"
instead of returning a usable-storage figure within 0.01 of X. -/
theorem raid_roundtrip_counterexample :
    raidRoundTrip (1 / 250) 100 0 = .error "Raw storage must be positive" ∧
    ¬ ∃ u, raidRoundTrip (1 / 250) 100 0 = .ok u ∧
      |u - 1 / 250| ≤ 1 / 100 := by
  obtain ⟨res, hres, hrawEq⟩ :=
    calculate_usable_storage_ok (1 / 250) 100 0 (by norm_num) (by norm_num)
      (by norm_num) (by norm_num) (by norm_num)
  have hrawv : res.raw_storage_needed_gb = 0 := by
    rw [hrawEq,
      show (1 : ℚ) / 250 / (((100 : ℚ) / 100) * (1 - (0 : ℚ) / 100)) = 1 / 250
        by norm_num,
      roundQ2_eq_of (1 / 250) 0 (by norm_num) (by norm_num)]
    norm_num
  have herr : raidRoundTrip (1 / 250) 100 0 =
      .error "Raw storage must be positive" := by
    unfold raidRoundTrip
    rw [hres]
    simp only [bind, Except.bind]
    rw [hrawv]
    unfold calculate_raid_overhead
    rw [if_pos (by norm_num)]
  refine ⟨herr, ?_⟩
  rintro ⟨u, hu, -⟩
  rw [herr] at hu
  exact Except.noConfusion hu

/-- C4 (amended): for every X ≥ 0.01, RAID usable percentage in (0, 100]
and filesystem overhead in [0, 100), the round-trip
`calculate_raid_overhead(calculate_usable_storage(X).raw_storage_needed_gb)`
succeeds and its `usable_storage_gb` is within 0.01 of X. -/
theorem raid_roundtrip_tolerance (X p o : ℚ) (hX : 1 / 100 ≤ X) (h1 : 0 < p)
    (h2 : p ≤ 100) (h3 : 0 ≤ o) (h4 : o < 100) :
    ∃ u, raidRoundTrip X p o = .ok u ∧ |u - X| ≤ 1 / 100 := by
  set m := (p / 100) * (1 - o / 100) with hm
  have hm0 : 0 < m := mul_pos (by linarith) (by linarith)
  have hm1 : m ≤ 1 :=
    mul_le_one₀ (by linarith) (by linarith) (by linarith)
  have hX0 : 0 < X := lt_of_lt_of_le (by norm_num) hX
  obtain ⟨res, hres, hrawEq⟩ := calculate_usable_storage_ok X p o hX0 h1 h2 h3 h4
  have hrawge : 1 / 100 ≤ X / m := by
    rw [le_div_iff₀ hm0]
    nlinarith
  have hroundraw : 1 / 100 ≤ roundQ2 (X / m) := by
    unfold roundQ2
    have hfl : (1 : ℤ) ≤ round (X / m * 100) := by
      rw [round_eq, Int.le_floor]
      push_cast
      linarith
    have : ((1 : ℤ) : ℚ) ≤ ((round (X / m * 100) : ℤ) : ℚ) := by
      exact_mod_cast hfl
    push_cast at this
    linarith
  have hrr0 : 0 < res.raw_storage_needed_gb := by
    rw [hrawEq]
    linarith
  have hfwd := calculate_raid_overhead_ok res.raw_storage_needed_gb p o hrr0
    h1 h2 h3 h4
  refine ⟨roundQ2 (res.raw_storage_needed_gb * (p / 100) * (1 - o / 100)),
    ?_, ?_⟩
  · unfold raidRoundTrip
    rw [hres]
    simp only [bind, Except.bind]
    rw [hfwd]
  · have key : res.raw_storage_needed_gb * (p / 100) * (1 - o / 100) =
        res.raw_storage_needed_gb * m := by
      rw [hm]; ring
    have e2 : |roundQ2 (res.raw_storage_needed_gb * (p / 100) * (1 - o / 100))
        - res.raw_storage_needed_gb * m| ≤ 1 / 200 := by
      rw [← key]; exact roundQ2_abs_le _
    have e1 : |res.raw_storage_needed_gb - X / m| ≤ 1 / 200 := by
      rw [hrawEq]; exact roundQ2_abs_le _
    have hXm : X / m * m = X := div_mul_cancel₀ X (ne_of_gt hm0)
    have hdiff : res.raw_storage_needed_gb * m - X =
        (res.raw_storage_needed_gb - X / m) * m := by
      rw [sub_mul, hXm]
    have habs : |res.raw_storage_needed_gb * m - X| =
        |res.raw_storage_needed_gb - X / m| * m := by
      rw [hdiff, abs_mul, abs_of_pos hm0]
    have hmul : |res.raw_storage_needed_gb - X / m| * m ≤ 1 / 200 * 1 :=
      mul_le_mul e1 hm1 (le_of_lt hm0) (by norm_num)
    have htri := abs_sub_le
      (roundQ2 (res.raw_storage_needed_gb * (p / 100) * (1 - o / 100)))
      (res.raw_storage_needed_gb * m) X
    rw [habs] at htri
    linarith

/-- Witness for C4 at the reference scenario X = 7125 GB, RAID 5 (75%
usable), 5% filesystem overhead (raw = 10000 GB). -/
theorem raid_roundtrip_tolerance_witness :
    ((1 : ℚ) / 100 ≤ 7125 ∧ (0 : ℚ) < 75 ∧ (75 : ℚ) ≤ 100 ∧
      (0 : ℚ) ≤ 5 ∧ (5 : ℚ) < 100) ∧
    ∃ u, raidRoundTrip 7125 75 5 = .ok u ∧ |u - 7125| ≤ 1 / 100 :=
  ⟨⟨by norm_num, by norm_num, by norm_num, by norm_num, by norm_num⟩,
    raid_roundtrip_tolerance 7125 75 5 (by norm_num) (by norm_num)
      (by norm_num) (by norm_num) (by norm_num)⟩

end NxCalc

namespace NxCalc

/-! ## C2 : multi-site device conservation -/

lemma allocGroups_spec (rs : List ℕ) : ∀ cap : ℕ,
    (allocGroups rs cap).2 = min cap rs.sum ∧
    (allocGroups rs cap).1.sum = rs.sum - min cap rs.sum := by
  induction rs with
  | nil => intro cap; simp [allocGroups]
  | cons r rs ih =>
    intro cap
    obtain ⟨h1, h2⟩ := ih (cap - min r cap)
    simp only [allocGroups, List.sum_cons]
    constructor <;> omega

lemma allocSites_sum (caps : List ℕ) : ∀ rem : List ℕ,
    (allocSites caps rem).sum = min rem.sum caps.sum := by
  induction caps with
  | nil => intro rem; simp [allocSites]
  | cons c cs ih =>
    intro rem
    obtain ⟨h1, h2⟩ := allocGroups_spec rem c
    simp only [allocSites, List.sum_cons]
    rw [ih]
    omega

lemma fillSites_sum (max_per : ℕ) : ∀ n : ℕ, 1 ≤ n → ∀ rem : ℕ,
    (n - 1) * max_per ≤ rem → (fillSites max_per n rem).sum = rem := by
  intro n
  induction n with
  | zero => omega
  | succ k ih =>
    intro _ rem hrem
    cases k with
    | zero => simp [fillSites]
    | succ j =>
      have hsub : j + 1 + 1 - 1 = j + 1 := rfl
      have hmul : (j + 1) * max_per = j * max_per + max_per := by ring
      rw [hsub, hmul] at hrem
      simp only [fillSites, List.sum_cons]
      have hj : j * max_per ≤ rem - max_per := by omega
      rw [ih (by omega) (rem - max_per) hj]
      omega

lemma sitesNeeded_bounds (total maxPer : ℕ) (ht : 1 ≤ total)
    (hm : 1 ≤ maxPer) :
    1 ≤ (total + maxPer - 1) / maxPer ∧
    ((total + maxPer - 1) / maxPer - 1) * maxPer ≤ total := by
  set n := (total + maxPer - 1) / maxPer with hn
  have hmod : (total + maxPer - 1) % maxPer < maxPer := Nat.mod_lt _ hm
  have hdm : maxPer * n + (total + maxPer - 1) % maxPer = total + maxPer - 1 :=
    Nat.div_add_mod _ _
  have h1 : 1 ≤ n := by
    rcases Nat.eq_zero_or_pos n with h0 | h0
    · rw [h0, Nat.mul_zero, Nat.zero_add] at hdm
      omega
    · exact h0
  refine ⟨h1, ?_⟩
  have e : (n - 1) * maxPer = n * maxPer - maxPer := Nat.sub_one_mul n maxPer
  have e2 : maxPer * n = n * maxPer := Nat.mul_comm _ _
  rw [e2] at hdm
  generalize hP : n * maxPer = P at hdm e
  omega

/-- C2: for any non-empty list of camera-group device counts, all positive,
and any `max_devices_per_site ≥ 1`, the multi-site distribution succeeds and
the per-site device counts sum to exactly the total number of input devices:
no device is lost or duplicated, including when a group is split across a
site boundary. -/
theorem multi_site_conservation (group_counts : List ℕ)
    (max_devices_per_site : ℕ) (hne : group_counts ≠ [])
    (hpos : ∀ g ∈ group_counts, 1 ≤ g) (hm : 1 ≤ max_devices_per_site) :
    ∃ sites, multiSiteDeviceCounts group_counts max_devices_per_site =
        .ok sites ∧
      sites.sum = group_counts.sum := by
  have htot : 1 ≤ group_counts.sum := by
    cases group_counts with
    | nil => exact absurd rfl hne
    | cons a l =>
      have := hpos a (by simp)
      simp only [List.sum_cons]
      omega
  obtain ⟨hn1, hnb⟩ :=
    sitesNeeded_bounds group_counts.sum max_devices_per_site htot hm
  simp only [multiSiteDeviceCounts, calculate_sites_needed]
  rw [if_neg (by omega), if_neg (by omega)]
  simp only [bind, Except.bind]
  refine ⟨_, rfl, ?_⟩
  rw [allocSites_sum, fillSites_sum max_devices_per_site _ hn1 _ hnb]
  omega

/-- Witness for C2: two groups of 1000 and 2000 devices with at most 2560
devices per site (3000 devices over 2 sites). -/
theorem multi_site_conservation_witness :
    ∃ sites, multiSiteDeviceCounts [1000, 2000] 2560 = .ok sites ∧
      sites.sum = [1000, 2000].sum :=
  multi_site_conservation [1000, 2000] 2560 (by decide) (by decide) (by decide)

end NxCalc

namespace NxCalc

/-! ## C3 : server count is the max of three ceiling bounds -/

/-- C3: for every `total_devices ≥ 1` and `total_bitrate ≥ 0` (and positive
capacity parameters), `calculate_server_count` succeeds and returns
`servers_needed` equal to the maximum of the three ceiling bounds
(device count over `min(max_devices_per_server, cpu_max_cameras)`,
bandwidth over `nic_capacity * nic_count * (1 - headroom)`, and
storage throughput), hence `servers_needed ≥ 1`, with the limiting factor
chosen by the spec's tie priority. -/
theorem server_count_bounds (total_devices : ℤ) (br nic h st : ℚ)
    (cnt : ℕ) (maxDev cpuMax : ℤ)
    (hd : 1 ≤ total_devices) (hbr : 0 ≤ br) (hnic : 0 < nic) (hcnt : 1 ≤ cnt)
    (hh0 : 0 ≤ h) (hh1 : h < 1) (hmd : 1 ≤ maxDev) (hcpu : 1 ≤ cpuMax)
    (hst : 0 < st) :
    ∃ r, calculate_server_count total_devices br nic cnt maxDev h st cpuMax =
        .ok r ∧
      r.servers_needed =
        max ⌈(total_devices : ℚ) / ((min maxDev cpuMax : ℤ) : ℚ)⌉
          (max ⌈br / (nic * cnt * (1 - h))⌉ ⌈br / st⌉) ∧
      1 ≤ r.servers_needed ∧
      r.limiting_factor =
        claimedLimitingFactor
          ⌈(total_devices : ℚ) / ((min maxDev cpuMax : ℤ) : ℚ)⌉
          ⌈br / (nic * cnt * (1 - h))⌉ ⌈br / st⌉ := by
  have hmin : (1 : ℤ) ≤ min maxDev cpuMax := le_min hmd hcpu
  have hminQ : (0 : ℚ) < ((min maxDev cpuMax : ℤ) : ℚ) := by
    exact_mod_cast lt_of_lt_of_le zero_lt_one hmin
  have hdQ : (0 : ℚ) < (total_devices : ℚ) := by
    exact_mod_cast lt_of_lt_of_le zero_lt_one hd
  have hB1 : 1 ≤ ⌈(total_devices : ℚ) / ((min maxDev cpuMax : ℤ) : ℚ)⌉ := by
    have := Int.ceil_pos.mpr (div_pos hdQ hminQ)
    omega
  have hcntQ : (0 : ℚ) < (cnt : ℚ) := by
    have : (1 : ℚ) ≤ (cnt : ℚ) := by exact_mod_cast hcnt
    linarith
  have hdenom : (0 : ℚ) < nic * cnt * (1 - h) :=
    mul_pos (mul_pos hnic hcntQ) (by linarith)
  have hB2 : 0 ≤ ⌈br / (nic * cnt * (1 - h))⌉ :=
    Int.ceil_nonneg (div_nonneg hbr (le_of_lt hdenom))
  have hB3 : 0 ≤ ⌈br / st⌉ :=
    Int.ceil_nonneg (div_nonneg hbr (le_of_lt hst))
  simp only [calculate_server_count, calculate_storage_throughput_limit]
  rw [if_neg (by omega), if_neg (not_lt.mpr hbr)]
  refine ⟨_, rfl, ?_, ?_, ?_⟩
  · dsimp only
    omega
  · dsimp only
    omega
  · dsimp only
    unfold claimedLimitingFactor
    split_ifs <;> first | rfl | (exfalso; omega)

/-- Witness for C3: 300 devices, 600 Mbps on a 1-Gbps NIC with the default
parameters (the storage-throughput bound, 3 servers, wins). -/
theorem server_count_bounds_witness :
    ∃ r, calculate_server_count 300 600 1000 1 256 (1 / 5) 204 256 = .ok r ∧
      r.servers_needed =
        max ⌈(300 : ℚ) / ((min 256 256 : ℤ) : ℚ)⌉
          (max ⌈(600 : ℚ) / (1000 * (1 : ℕ) * (1 - 1 / 5))⌉
            ⌈(600 : ℚ) / 204⌉) ∧
      1 ≤ r.servers_needed ∧
      r.limiting_factor =
        claimedLimitingFactor ⌈(300 : ℚ) / ((min 256 256 : ℤ) : ℚ)⌉
          ⌈(600 : ℚ) / (1000 * (1 : ℕ) * (1 - 1 / 5))⌉ ⌈(600 : ℚ) / 204⌉ :=
  server_count_bounds 300 600 1000 (1 / 5) 204 1 256 256 (by norm_num)
    (by norm_num) (by norm_num) (by norm_num) (by norm_num) (by norm_num)
    (by norm_num) (by norm_num) (by norm_num)

end NxCalc

namespace NxCalc

/-! ## C1 : failover capacity search -/

lemma failoverChecks_cpu (P : FailoverParams) (k : ℕ) (b : ℚ)
    (h : failoverChecks P k b = true) : k ≤ P.cpu_max_cameras := by
  unfold failoverChecks at h
  simp only [Bool.and_eq_true, decide_eq_true_eq] at h
  exact h.1.1.2

lemma failoverLoop_mono (P : FailoverParams) : ∀ (fuel : ℕ) (s : ℕ × ℚ),
    s.1 ≤ (failoverLoop P fuel s).1 := by
  intro fuel
  induction fuel with
  | zero => intro s; exact le_refl _
  | succ f ih =>
    intro s
    obtain ⟨c, b⟩ := s
    simp only [failoverLoop]
    split_ifs with hc
    · exact le_trans (Nat.le_succ c)
        (ih (c + 1, b + P.max_camera_bitrate_mbps))
    · exact le_refl _

lemma failoverLoop_spec (P : FailoverParams) : ∀ (fuel c : ℕ),
    c ≤ P.cpu_max_cameras → P.cpu_max_cameras + 1 ≤ fuel + c →
    (failoverLoop P fuel
        (c, (c : ℚ) * P.max_camera_bitrate_mbps)).1 ≤ P.cpu_max_cameras ∧
    c ≤ (failoverLoop P fuel (c, (c : ℚ) * P.max_camera_bitrate_mbps)).1 ∧
    (failoverLoop P fuel (c, (c : ℚ) * P.max_camera_bitrate_mbps)).2 =
      ((failoverLoop P fuel
          (c, (c : ℚ) * P.max_camera_bitrate_mbps)).1 : ℚ) *
        P.max_camera_bitrate_mbps ∧
    (∀ k, c < k →
      k ≤ (failoverLoop P fuel (c, (c : ℚ) * P.max_camera_bitrate_mbps)).1 →
      failoverChecks P k ((k : ℚ) * P.max_camera_bitrate_mbps) = true) ∧
    failoverChecks P
      ((failoverLoop P fuel (c, (c : ℚ) * P.max_camera_bitrate_mbps)).1 + 1)
      ((((failoverLoop P fuel
          (c, (c : ℚ) * P.max_camera_bitrate_mbps)).1 + 1 : ℕ) : ℚ) *
        P.max_camera_bitrate_mbps) = false := by
  intro fuel
  induction fuel with
  | zero =>
    intro c h1 h2
    exact absurd h2 (by omega)
  | succ f ih =>
    intro c h1 h2
    have hb : (c : ℚ) * P.max_camera_bitrate_mbps +
        P.max_camera_bitrate_mbps =
        ((c + 1 : ℕ) : ℚ) * P.max_camera_bitrate_mbps := by
      push_cast
      ring
    simp only [failoverLoop]
    split_ifs with hc
    · have hc' : failoverChecks P (c + 1)
          (((c + 1 : ℕ) : ℚ) * P.max_camera_bitrate_mbps) = true :=
        hb ▸ hc
      rw [hb]
      have hcpu : c + 1 ≤ P.cpu_max_cameras := failoverChecks_cpu P (c + 1) _ hc'
      obtain ⟨g1, g2, g3, g4, g5⟩ := ih (c + 1) hcpu (by omega)
      refine ⟨g1, le_trans (Nat.le_succ c) g2, g3, ?_, g5⟩
      intro k hk1 hk2
      by_cases hkc : k = c + 1
      · rw [hkc]
        exact hc'
      · exact g4 k (by omega) hk2
    · have hfail : failoverChecks P (c + 1)
          ((c : ℚ) * P.max_camera_bitrate_mbps +
            P.max_camera_bitrate_mbps) = false :=
        Bool.eq_false_iff.mpr hc
    
      rw [hb] at hfail
      exact ⟨h1, le_refl c, rfl, fun k hk1 hk2 => absurd (lt_of_lt_of_le hk1 hk2) (lt_irrefl c), hfail⟩

lemma firstFail_unique {p : ℕ → Bool} {a b : ℕ}
    (ha1 : ∀ k, 0 < k → k ≤ a → p k = true) (ha2 : p (a + 1) = false)
    (hb1 : ∀ k, 0 < k → k ≤ b → p k = true) (hb2 : p (b + 1) = false) :
    a = b := by
  rcases lt_trichotomy a b with h | h | h
  · have := hb1 (a + 1) (by omega) (by omega)
    rw [ha2] at this
    exact Bool.noConfusion this
  · exact h
  · have := ha1 (b + 1) (by omega) (by omega)
    rw [hb2] at this
    exact Bool.noConfusion this

/-- C1: for positive per-camera bitrate and any configured CPU camera cap M,
the failover capacity search terminates (any fuel beyond `M + 1` computes
the same result as the source's unbounded `while` loop), never decreases the
camera counter, admits exactly one camera per iteration while all four
checks (RAM, CPU, NIC, storage-device count) pass, halts at the first
failing check, and returns `max_cameras` with `0 ≤ max_cameras ≤ M`. -/
theorem failover_search_characterization (P : FailoverParams)
    (hmcb : 0 < P.max_camera_bitrate_mbps) :
    (∀ (fuel : ℕ) (s : ℕ × ℚ), s.1 ≤ (failoverLoop P fuel s).1) ∧
    (∀ extra : ℕ,
      (failoverLoop P (P.cpu_max_cameras + 1 + extra) (0, 0)).1 =
        calculate_failover_capacity P) ∧
    (∀ k, 1 ≤ k → k ≤ calculate_failover_capacity P →
      failoverChecks P k ((k : ℚ) * P.max_camera_bitrate_mbps) = true) ∧
    failoverChecks P (calculate_failover_capacity P + 1)
      (((calculate_failover_capacity P + 1 : ℕ) : ℚ) *
        P.max_camera_bitrate_mbps) = false ∧
    calculate_failover_capacity P ≤ P.cpu_max_cameras := by
  have h0 : ((0 : ℕ) : ℚ) * P.max_camera_bitrate_mbps = 0 := by simp
  have base := failoverLoop_spec P (P.cpu_max_cameras + 1) 0 (Nat.zero_le _)
    (by omega)
  rw [h0] at base
  obtain ⟨b1, _, _, b4, b5⟩ := base
  refine ⟨failoverLoop_mono P, ?_, ?_, b5, b1⟩
  · intro extra
    have hex := failoverLoop_spec P (P.cpu_max_cameras + 1 + extra) 0
      (Nat.zero_le _) (by omega)
    rw [h0] at hex
    obtain ⟨_, _, _, e4, e5⟩ := hex
    exact firstFail_unique e4 e5 b4 b5
  · exact fun k hk1 hk2 => b4 k hk1 hk2

/-- Witness for C1 at a concrete parameter set: 5 Mbps peak per camera,
CPU cap 256, 8 GB RAM, one 600-Mbps NIC, 204 Mbps storage throughput, no
hosted client, 40 MB per camera, 3072 MB client RAM, 1024 MB OS RAM. -/
theorem failover_search_characterization_witness :
    (0 : ℚ) < 5 ∧
    ((∀ (fuel : ℕ) (s : ℕ × ℚ),
      s.1 ≤ (failoverLoop ⟨5, 256, 8, 600, 1, 204, false, 40, 3072, 1024⟩
        fuel s).1) ∧
    (∀ extra : ℕ,
      (failoverLoop ⟨5, 256, 8, 600, 1, 204, false, 40, 3072, 1024⟩
          (256 + 1 + extra) (0, 0)).1 =
        calculate_failover_capacity
          ⟨5, 256, 8, 600, 1, 204, false, 40, 3072, 1024⟩) ∧
    (∀ k, 1 ≤ k →
      k ≤ calculate_failover_capacity
        ⟨5, 256, 8, 600, 1, 204, false, 40, 3072, 1024⟩ →
      failoverChecks ⟨5, 256, 8, 600, 1, 204, false, 40, 3072, 1024⟩ k
        ((k : ℚ) * 5) = true) ∧
    failoverChecks ⟨5, 256, 8, 600, 1, 204, false, 40, 3072, 1024⟩
      (calculate_failover_capacity
        ⟨5, 256, 8, 600, 1, 204, false, 40, 3072, 1024⟩ + 1)
      (((calculate_failover_capacity
          ⟨5, 256, 8, 600, 1, 204, false, 40, 3072, 1024⟩ + 1 : ℕ) : ℚ) * 5)
        = false ∧
    calculate_failover_capacity
      ⟨5, 256, 8, 600, 1, 204, false, 40, 3072, 1024⟩ ≤ 256) :=
  ⟨by norm_num,
    failover_search_characterization
      ⟨5, 256, 8, 600, 1, 204, false, 40, 3072, 1024⟩ (by norm_num)⟩

end NxCalc

namespace NxCalc

/-! ## C7 : bitrate monotonicity -/

lemma roundR2_eq_of (x : ℝ) (n : ℤ) (h1 : (n : ℝ) ≤ x * 100 + 1 / 2)
    (h2 : x * 100 + 1 / 2 < n + 1) : roundR2 x = (n : ℝ) / 100 := by
  rw [roundR2, round_eq_of (x * 100) n h1 h2]

lemma roundR2_mono {a b : ℝ} (h : a ≤ b) : roundR2 a ≤ roundR2 b := by
  unfold roundR2
  have h1 : round (a * 100) ≤ round (b * 100) := by
    rw [round_eq, round_eq]
    exact Int.floor_le_floor (by linarith)
  have h2 : ((round (a * 100) : ℤ) : ℝ) ≤ ((round (b * 100) : ℤ) : ℝ) := by
    exact_mod_cast h1
  linarith

/-- C7 (counterexample to the claim as stated): after the 2-decimal rounding
applied at the function boundary, `calculate_bitrate` is not strictly
increasing in fps nor in resolution area: at area 1 px with MJPEG,
compression 0.1 and quality 0.1, fps 1 and fps 2 both round to 0.00 Kbps,
as do areas 1 and 2 at fps 1. -/
theorem bitrate_rounding_counterexample :
    (1 : ℕ) < 2 ∧
    calculate_bitrate 1 1 (1 / 10) (1 / 10) false 64 "mjpeg" 1 = .ok 0 ∧
    calculate_bitrate 1 2 (1 / 10) (1 / 10) false 64 "mjpeg" 1 = .ok 0 ∧
    calculate_bitrate 2 1 (1 / 10) (1 / 10) false 64 "mjpeg" 1 = .ok 0 := by
  have hmj : isPowerCodec "mjpeg" = false := by decide
  refine ⟨by omega, ?_, ?_, ?_⟩ <;>
  · unfold calculate_bitrate
    rw [if_neg (by omega), if_neg (not_not_intro ⟨by omega, by omega⟩),
      if_neg (by norm_num), if_neg (by norm_num), if_neg (by norm_num)]
    unfold totalBitrateKbps videoBitrateKbps
    rw [if_neg (by rw [hmj]; exact Bool.false_ne_true)]
    rw [roundR2_eq_of _ 0 (by norm_num) (by norm_num)]
    norm_num

/-- C7 (amended): before the 2-decimal rounding, the bitrate computed by
`calculate_bitrate` is strictly increasing in fps (for fixed positive
resolution area, codec, compression, quality, audio) and strictly
increasing in resolution area (for fixed fps in [1,100]); after the
rounding the function is monotone non-decreasing in both arguments, and on
valid inputs `calculate_bitrate` returns exactly the rounded value. -/
theorem bitrate_monotonicity (cf q bf ab : ℝ) (codec : String) (audio : Bool)
    (hcf : 0 < cf) (hq : 0 < q) (hbf : 0 < bf) :
    (∀ (area f1 f2 : ℕ), 0 < area → 1 ≤ f1 → f1 < f2 → f2 ≤ 100 →
      totalBitrateKbps area f1 cf q audio ab codec bf <
        totalBitrateKbps area f2 cf q audio ab codec bf) ∧
    (∀ (fps a1 a2 : ℕ), 1 ≤ fps → fps ≤ 100 → 0 < a1 → a1 < a2 →
      totalBitrateKbps a1 fps cf q audio ab codec bf <
        totalBitrateKbps a2 fps cf q audio ab codec bf) ∧
    (∀ (a1 a2 f1 f2 : ℕ), a1 ≤ a2 → f1 ≤ f2 →
      roundR2 (totalBitrateKbps a1 f1 cf q audio ab codec bf) ≤
        roundR2 (totalBitrateKbps a2 f2 cf q audio ab codec bf)) ∧
    (∀ (area fps : ℕ), 0 < area → 1 ≤ fps → fps ≤ 100 →
      calculate_bitrate area fps cf q audio ab codec bf =
        .ok (roundR2 (totalBitrateKbps area fps cf q audio ab codec bf))) := by
  refine ⟨?_, ?_, ?_, ?_⟩
  · intro area f1 f2 ha hf1 hff _
    unfold totalBitrateKbps
    apply add_lt_add_right
    unfold videoBitrateKbps
    have haR : (0 : ℝ) < (area : ℝ) := by exact_mod_cast ha
    have hfR : (f1 : ℝ) < (f2 : ℝ) := by exact_mod_cast hff
    by_cases hpc : isPowerCodec codec
    · rw [if_pos hpc, if_pos hpc]
      have hrpow : (0 : ℝ) < (area : ℝ) ^ (0.7 : ℝ) :=
        Real.rpow_pos_of_pos haR _
      rw [show bf * q * (f1 : ℝ) * (9 / 1000 * (area : ℝ) ^ (0.7 : ℝ)) * cf
            / 1024 =
          bf * q * (9 / 1000 * (area : ℝ) ^ (0.7 : ℝ)) * cf / 1024 * f1
          from by ring,
        show bf * q * (f2 : ℝ) * (9 / 1000 * (area : ℝ) ^ (0.7 : ℝ)) * cf
            / 1024 =
          bf * q * (9 / 1000 * (area : ℝ) ^ (0.7 : ℝ)) * cf / 1024 * f2
          from by ring]
      exact mul_lt_mul_of_pos_left hfR (by positivity)
    · rw [if_neg hpc, if_neg hpc]
      rw [show (area : ℝ) / 6666 * (f1 : ℝ) * q * (cf + 1 / 3) * 12 / 1024 =
          (area : ℝ) / 6666 * q * (cf + 1 / 3) * 12 / 1024 * f1 from by ring,
        show (area : ℝ) / 6666 * (f2 : ℝ) * q * (cf + 1 / 3) * 12 / 1024 =
          (area : ℝ) / 6666 * q * (cf + 1 / 3) * 12 / 1024 * f2 from by ring]
      exact mul_lt_mul_of_pos_left hfR (by positivity)
  · intro fps a1 a2 hf1 _ ha1 haa
    unfold totalBitrateKbps
    apply add_lt_add_right
    unfold videoBitrateKbps
    have hfR : (0 : ℝ) < (fps : ℝ) := by
      have : (1 : ℝ) ≤ (fps : ℝ) := by exact_mod_cast hf1
      linarith
    have haR : (a1 : ℝ) < (a2 : ℝ) := by exact_mod_cast haa
    by_cases hpc : isPowerCodec codec
    · rw [if_pos hpc, if_pos hpc]
      have hrpow : (a1 : ℝ) ^ (0.7 : ℝ) < (a2 : ℝ) ^ (0.7 : ℝ) :=
        Real.rpow_lt_rpow (Nat.cast_nonneg a1) haR (by norm_num)
      rw [show bf * q * (fps : ℝ) * (9 / 1000 * (a1 : ℝ) ^ (0.7 : ℝ)) * cf
            / 1024 =
          bf * q * (fps : ℝ) * (9 / 1000) * cf / 1024 *
            ((a1 : ℝ) ^ (0.7 : ℝ)) from by ring,
        show bf * q * (fps : ℝ) * (9 / 1000 * (a2 : ℝ) ^ (0.7 : ℝ)) * cf
            / 1024 =
          bf * q * (fps : ℝ) * (9 / 1000) * cf / 1024 *
            ((a2 : ℝ) ^ (0.7 : ℝ)) from by ring]
      exact mul_lt_mul_of_pos_left hrpow (by positivity)
    · rw [if_neg hpc, if_neg hpc]
      rw [show (a1 : ℝ) / 6666 * (fps : ℝ) * q * (cf + 1 / 3) * 12 / 1024 =
          (fps : ℝ) * q * (cf + 1 / 3) * 12 / 1024 / 6666 * (a1 : ℝ)
          from by ring,
        show (a2 : ℝ) / 6666 * (fps : ℝ) * q * (cf + 1 / 3) * 12 / 1024 =
          (fps : ℝ) * q * (cf + 1 / 3) * 12 / 1024 / 6666 * (a2 : ℝ)
          from by ring]
      exact mul_lt_mul_of_pos_left haR (by positivity)
  · intro a1 a2 f1 f2 h12 hf12
    apply roundR2_mono
    unfold totalBitrateKbps
    apply add_le_add_right
    unfold videoBitrateKbps
    have hfle : (f1 : ℝ) ≤ (f2 : ℝ) := by exact_mod_cast hf12
    have hale : (a1 : ℝ) ≤ (a2 : ℝ) := by exact_mod_cast h12
    by_cases hpc : isPowerCodec codec
    · rw [if_pos hpc, if_pos hpc]
      have hr : (a1 : ℝ) ^ (0.7 : ℝ) ≤ (a2 : ℝ) ^ (0.7 : ℝ) :=
        Real.rpow_le_rpow (Nat.cast_nonneg _) hale (by norm_num)
      rw [show bf * q * (f1 : ℝ) * (9 / 1000 * (a1 : ℝ) ^ (0.7 : ℝ)) * cf
            / 1024 =
          bf * q * (9 / 1000) * cf / 1024 *
            ((f1 : ℝ) * (a1 : ℝ) ^ (0.7 : ℝ)) from by ring,
        show bf * q * (f2 : ℝ) * (9 / 1000 * (a2 : ℝ) ^ (0.7 : ℝ)) * cf
            / 1024 =
          bf * q * (9 / 1000) * cf / 1024 *
            ((f2 : ℝ) * (a2 : ℝ) ^ (0.7 : ℝ)) from by ring]
      refine mul_le_mul_of_nonneg_left ?_ (by positivity)
      exact mul_le_mul hfle hr (by positivity) (by positivity)
    · rw [if_neg hpc, if_neg hpc]
      rw [show (a1 : ℝ) / 6666 * (f1 : ℝ) * q * (cf + 1 / 3) * 12 / 1024 =
          q * (cf + 1 / 3) * 12 / 1024 / 6666 * ((a1 : ℝ) * (f1 : ℝ))
          from by ring,
        show (a2 : ℝ) / 6666 * (f2 : ℝ) * q * (cf + 1 / 3) * 12 / 1024 =
          q * (cf + 1 / 3) * 12 / 1024 / 6666 * ((a2 : ℝ) * (f2 : ℝ))
          from by ring]
      refine mul_le_mul_of_nonneg_left ?_ (by positivity)
      exact mul_le_mul hale hfle (by positivity) (by positivity)
  · intro area fps ha hf1 hf2
    unfold calculate_bitrate
    rw [if_neg (by omega), if_neg (not_not_intro ⟨hf1, hf2⟩),
      if_neg (not_le.mpr hcf), if_neg (not_le.mpr hq), if_neg (not_le.mpr hbf)]

/-- Witness for C7 at H.264 parameters (compression 0.1, quality 0.55,
brand factor 1, no audio). -/
theorem bitrate_monotonicity_witness :
    ((0 : ℝ) < 1 / 10 ∧ (0 : ℝ) < 11 / 20 ∧ (0 : ℝ) < 1) ∧
    ((∀ (area f1 f2 : ℕ), 0 < area → 1 ≤ f1 → f1 < f2 → f2 ≤ 100 →
      totalBitrateKbps area f1 (1 / 10) (11 / 20) false 64 "h264" 1 <
        totalBitrateKbps area f2 (1 / 10) (11 / 20) false 64 "h264" 1) ∧
    (∀ (fps a1 a2 : ℕ), 1 ≤ fps → fps ≤ 100 → 0 < a1 → a1 < a2 →
      totalBitrateKbps a1 fps (1 / 10) (11 / 20) false 64 "h264" 1 <
        totalBitrateKbps a2 fps (1 / 10) (11 / 20) false 64 "h264" 1) ∧
    (∀ (a1 a2 f1 f2 : ℕ), a1 ≤ a2 → f1 ≤ f2 →
      roundR2 (totalBitrateKbps a1 f1 (1 / 10) (11 / 20) false 64 "h264" 1) ≤
        roundR2 (totalBitrateKbps a2 f2 (1 / 10) (11 / 20) false 64 "h264" 1)) ∧
    (∀ (area fps : ℕ), 0 < area → 1 ≤ fps → fps ≤ 100 →
      calculate_bitrate area fps (1 / 10) (11 / 20) false 64 "h264" 1 =
        .ok (roundR2
          (totalBitrateKbps area fps (1 / 10) (11 / 20) false 64 "h264" 1)))) :=
  ⟨⟨by norm_num, by norm_num, by norm_num⟩,
    bitrate_monotonicity (1 / 10) (11 / 20) 1 64 "h264" false
      (by norm_num) (by norm_num) (by norm_num)⟩

end NxCalc
